import Mathlib

/-!
Verification of the HTML-to-design-node transformer of this repository.

Shallow embedding of:
- src/utils/html_parser.py (class HTMLParser and the HTMLNode dataclass);
- src/utils/bootstrap_to_figma_resolver.py (BOOTSTRAP_TO_FIGMA and
  resolve_bootstrap_styles);
- src/utils/tailwind_to_figma_resolver.py (TAILWIND_TO_FIGMA and
  resolve_tailwind_styles).

Modelling conventions:
- Python dicts are insertion-ordered association lists (List (String × v));
  dset models "d[k] = v" (updates in place, else appends), dUpdate models
  "d.update(patch)", dget models lookup and the "k in d" test.
- Python ints are embedded as ZZ (values FVal.num), Python floats as QQ
  (values FVal.flt); the decimal float literals of the source are read as
  exact rationals.
- Exceptions are Option: none is an uncaught exception escaping the
  function, and code that catches an exception locally pattern-matches on
  none. The BeautifulSoup document (tags, attributes, class lists, strings)
  is modelled by the HNode tree; str.strip, str.split, str.upper,
  str.replace, int(...), float(...) and the two regexes of the source are
  modelled by executable functions over lists of characters, restricted to
  ASCII (the claims only exercise ASCII data).
-/

namespace HtmlToFigma

/-- Whitespace characters recognised by the embedding of str.strip and of
the regex class backslash-s (ASCII part). -/
def isPySpace (c : Char) : Bool :=
  c.toNat = 32 || c.toNat = 9 || c.toNat = 10 || c.toNat = 13 ||
    c.toNat = 11 || c.toNat = 12

/-- Embedding of str.strip with no argument: drop leading and trailing
whitespace. -/
def pyStrip (s : String) : String :=
  ⟨(s.data.dropWhile isPySpace).reverse.dropWhile isPySpace |>.reverse⟩

/-- True when the first list starts with the second one. -/
def startsWithL : List Char → List Char → Bool
  | _, [] => true
  | [], _ :: _ => false
  | h :: hs, n :: ns => h = n && startsWithL hs ns

/-- Embedding of str.startswith on strings. -/
def strStartsStr (s p : String) : Bool := startsWithL s.data p.data

/-- True when the second list occurs as a contiguous run of the first;
embedding of the Python "needle in haystack" substring test. -/
def hasSubList : List Char → List Char → Bool
  | [], needle => needle.isEmpty
  | h :: t, needle => startsWithL (h :: t) needle || hasSubList t needle

/-- Embedding of the Python substring test on strings. -/
def strHasSub (hay needle : String) : Bool := hasSubList hay.data needle.data

/-- Embedding of str.split with a one-character separator (the source only
splits on "-", ";" and ":"). -/
def splitOnChar (sep : Char) : List Char → List (List Char)
  | [] => [[]]
  | c :: rest =>
    let r := splitOnChar sep rest
    if c = sep then [] :: r
    else
      match r with
      | [] => [[c]]
      | g :: gs => (c :: g) :: gs

/-- ASCII uppercase of one character. -/
def upperChar (c : Char) : Char :=
  if 'a' ≤ c && c ≤ 'z' then Char.ofNat (c.toNat - 32) else c

/-- Embedding of str.upper (ASCII). -/
def pyUpper (s : String) : String := ⟨s.data.map upperChar⟩

/-- ASCII lowercase of one character. -/
def lowerChar (c : Char) : Char :=
  if 'A' ≤ c && c ≤ 'Z' then Char.ofNat (c.toNat + 32) else c

/-- Embedding of str.lower (ASCII); cssutils lowercases property names. -/
def pyLower (s : String) : String := ⟨s.data.map lowerChar⟩

/-- Hex digit test, the character class of the hex alternative of
color_regex. -/
def isHexChar (c : Char) : Bool :=
  c.isDigit || ('a' ≤ c && c ≤ 'f') || ('A' ≤ c && c ≤ 'F')

/-- Value of one hex digit, as used by int(s, 16); 0 on other characters
(never reached on matched input). -/
def hexVal (c : Char) : ℕ :=
  if c.isDigit then c.toNat - 48
  else if 'a' ≤ c && c ≤ 'f' then c.toNat - 87
  else if 'A' ≤ c && c ≤ 'F' then c.toNat - 55
  else 0

/-- Embedding of int(s, 16) on a list of hex digits. -/
def hexNat (cs : List Char) : ℕ := cs.foldl (fun a c => 16 * a + hexVal c) 0

/-- Decimal value of a list of ASCII digits. -/
def decNat (cs : List Char) : ℕ := cs.foldl (fun a c => 10 * a + (c.toNat - 48)) 0

/-- Character class of the regex token [backslash-d or dot]. -/
def isNumDot (c : Char) : Bool := c.isDigit || c = '.'

/-- Longest run of digit-or-dot characters at the head, and the rest. -/
def takeNumDot : List Char → List Char × List Char
  | [] => ([], [])
  | c :: cs =>
    if isNumDot c then
      let p := takeNumDot cs
      (c :: p.1, p.2)
    else ([], c :: cs)

/-- Longest run of digits at the head, and the rest. -/
def takeDigits : List Char → List Char × List Char
  | [] => ([], [])
  | c :: cs =>
    if c.isDigit then
      let p := takeDigits cs
      (c :: p.1, p.2)
    else ([], c :: cs)

/-- Embedding of re.findall applied to the digit-or-dot token pattern, as
used by _rgb_str_to_dict: all maximal runs of digits and dots, in order. -/
def findNumTokens : List Char → List (List Char)
  | [] => []
  | c :: cs =>
    let r := findNumTokens cs
    if isNumDot c then
      match cs with
      | d :: _ =>
        if isNumDot d then
          match r with
          | t :: ts => (c :: t) :: ts
          | [] => [[c]]
        else [c] :: r
      | [] => [[c]]
    else r

/-- Embedding of float(token) on a digit-or-dot token: at most one dot and
at least one digit, value read in decimal (tokens of re.findall never carry
signs, exponents or spaces). -/
def pyFloatTok (t : List Char) : Option ℚ :=
  if t.count '.' = 0 then
    if t = [] then none else some ((decNat t : ℕ) : ℚ)
  else if t.count '.' = 1 then
    let i := t.takeWhile (fun c => c ≠ '.')
    let f := (t.dropWhile (fun c => c ≠ '.')).drop 1
    if i = [] && f = [] then none
    else some (((decNat i : ℕ) : ℚ) + ((decNat f : ℕ) : ℚ) / (10 : ℚ) ^ f.length)
  else none

/-- Embedding of float(s) on a general string: strip whitespace, optional
sign, then a digit-or-dot token (exponent forms are not modelled; no claim
exercises them). -/
def pyFloatStr (s : String) : Option ℚ :=
  match (pyStrip s).data with
  | '+' :: r => pyFloatTok r
  | '-' :: r => (pyFloatTok r).map (fun q => -q)
  | r => pyFloatTok r

/-- Embedding of int(s): strip whitespace, optional sign, nonempty digits. -/
def pyIntStr (s : String) : Option ℤ :=
  let core : List Char → Option ℤ := fun ds =>
    if ds ≠ [] ∧ ds.all Char.isDigit then some ((decNat ds : ℕ) : ℤ) else none
  match (pyStrip s).data with
  | '+' :: r => core r
  | '-' :: r => (core r).map (fun z => -z)
  | r => core r

/-- Embedding of int(q) on a float value: truncation toward zero. -/
def pyTrunc (q : ℚ) : ℤ := q.num / (q.den : ℤ)

/-- Embedding of v.replace(with the two-character needle px, empty
replacement): delete every occurrence of p followed by x, left to right. -/
def removePx : List Char → List Char
  | 'p' :: 'x' :: rest => removePx rest
  | c :: rest => c :: removePx rest
  | [] => []

/-- Embedding of str.replace of px by the empty string. -/
def removePxStr (s : String) : String := ⟨removePx s.data⟩

/-- Python dict assignment d[k] = v on an insertion-ordered association
list: update in place when the key exists, else append at the end. -/
def dset {α : Type} : List (String × α) → String → α → List (String × α)
  | [], k, v => [(k, v)]
  | (k1, v1) :: m, k, v =>
    if k1 = k then (k1, v) :: m else (k1, v1) :: dset m k v

/-- Python dict lookup (first, hence unique, binding of the key). -/
def dget {α : Type} : List (String × α) → String → Option α
  | [], _ => none
  | (k1, v1) :: m, k => if k1 = k then some v1 else dget m k

/-- Python dict.update: set every binding of the patch, in order. -/
def dUpdate {α : Type} (m patch : List (String × α)) : List (String × α) :=
  patch.foldl (fun acc kv => dset acc kv.1 kv.2) m

/-- Framework names stored in HTMLParser.framework (None is Option.none). -/
inductive Fw where
  | bootstrap
  | tailwind
deriving DecidableEq, Repr

/-- Values of the figma_styles bag: Python ints, floats, strings, dicts and
lists, as stored by the source. -/
inductive FVal where
  | num (z : ℤ)
  | flt (q : ℚ)
  | str (s : String)
  | obj (fields : List (String × FVal))
  | arr (elems : List FVal)

/-- Result record of _normalize_color: the r, g, b, a channels (Python
floats). -/
structure Color where
  r : ℚ
  g : ℚ
  b : ℚ
  a : ℚ
deriving DecidableEq, Repr

/-- The color dict literal built from a Color record (keys in the insertion
order of the source). -/
def colorToFVal (c : Color) : FVal :=
  FVal.obj [("r", FVal.flt c.r), ("g", FVal.flt c.g),
            ("b", FVal.flt c.b), ("a", FVal.flt c.a)]

/-- BOOTSTRAP_TO_FIGMA of src/utils/bootstrap_to_figma_resolver.py,
transcribed entry by entry. -/
def BOOTSTRAP_TO_FIGMA : List (String × List (String × FVal)) := [
  ("d-flex", [("layoutMode", FVal.str "HORIZONTAL"),
    ("primaryAxisAlignItems", FVal.str "MIN"),
    ("counterAxisAlignItems", FVal.str "MIN")]),
  ("flex-column", [("layoutMode", FVal.str "VERTICAL"),
    ("primaryAxisAlignItems", FVal.str "MIN"),
    ("counterAxisAlignItems", FVal.str "MIN")]),
  ("align-items-center", [("counterAxisAlignItems", FVal.str "CENTER")]),
  ("justify-content-center", [("primaryAxisAlignItems", FVal.str "CENTER")]),
  ("gap-3", [("itemSpacing", FVal.num 16)]),
  ("w-100", [("constraints", FVal.obj [("horizontal", FVal.str "SCALE"),
    ("vertical", FVal.str "SCALE")]), ("minWidth", FVal.num 0)]),
  ("h-25", [("height", FVal.str "25%")]),
  ("mw-100", [("maxWidth", FVal.str "100%")]),
  ("p-3", [("paddingTop", FVal.num 16), ("paddingBottom", FVal.num 16),
    ("paddingLeft", FVal.num 16), ("paddingRight", FVal.num 16)]),
  ("py-2", [("paddingTop", FVal.num 8), ("paddingBottom", FVal.num 8)]),
  ("px-4", [("paddingLeft", FVal.num 24), ("paddingRight", FVal.num 24)]),
  ("mb-4", [("marginBottom", FVal.num 24)]),
  ("fs-4", [("fontSize", FVal.num 24), ("lineHeight", FVal.num 32)]),
  ("fs-6", [("fontSize", FVal.num 16), ("lineHeight", FVal.num 24)]),
  ("fw-bold", [("fontWeight", FVal.num 700)]),
  ("text-white", [("fills", FVal.arr [FVal.obj [("type", FVal.str "SOLID"),
    ("color", FVal.obj [("r", FVal.num 1), ("g", FVal.num 1), ("b", FVal.num 1)])]])]),
  ("bg-primary", [("fills", FVal.arr [FVal.obj [("type", FVal.str "SOLID"),
    ("color", FVal.obj [("r", FVal.flt (13/100)), ("g", FVal.flt (53/100)),
      ("b", FVal.flt (96/100))])]])]),
  ("bg-light", [("fills", FVal.arr [FVal.obj [("type", FVal.str "SOLID"),
    ("color", FVal.obj [("r", FVal.flt (96/100)), ("g", FVal.flt (96/100)),
      ("b", FVal.flt (96/100))])]])]),
  ("border", [("strokes", FVal.arr [FVal.obj [("type", FVal.str "SOLID"),
    ("color", FVal.obj [("r", FVal.flt (9/10)), ("g", FVal.flt (9/10)),
      ("b", FVal.flt (9/10))])]]), ("strokeWeight", FVal.num 1)]),
  ("rounded", [("cornerRadius", FVal.num 4)]),
  ("rounded-3", [("cornerRadius", FVal.num 16)]),
  ("shadow-sm", [("effects", FVal.arr [FVal.obj [("type", FVal.str "DROP_SHADOW"),
    ("color", FVal.obj [("r", FVal.num 0), ("g", FVal.num 0), ("b", FVal.num 0),
      ("a", FVal.flt (1/10))]),
    ("offset", FVal.obj [("x", FVal.num 0), ("y", FVal.num 1)]),
    ("radius", FVal.num 2)]])]),
  ("position-absolute", [("positioning", FVal.str "ABSOLUTE")]),
  ("top-0", [("y", FVal.num 0)]),
  ("start-0", [("x", FVal.num 0)])]

/-- resolve_bootstrap_styles of the source: fold the classes in order,
merging the patch of every class present in the table. -/
def resolve_bootstrap_styles (classes : List String) : List (String × FVal) :=
  classes.foldl (fun styles cls =>
    match dget BOOTSTRAP_TO_FIGMA cls with
    | some patch => dUpdate styles patch
    | none => styles) []

/-- TAILWIND_TO_FIGMA of src/utils/tailwind_to_figma_resolver.py,
transcribed entry by entry. -/
def TAILWIND_TO_FIGMA : List (String × List (String × FVal)) := [
  ("flex", [("layoutMode", FVal.str "HORIZONTAL"),
    ("primaryAxisAlignItems", FVal.str "MIN"),
    ("counterAxisAlignItems", FVal.str "MIN")]),
  ("flex-col", [("layoutMode", FVal.str "VERTICAL"),
    ("primaryAxisAlignItems", FVal.str "MIN"),
    ("counterAxisAlignItems", FVal.str "MIN")]),
  ("items-center", [("primaryAxisAlignItems", FVal.str "CENTER"),
    ("counterAxisAlignItems", FVal.str "CENTER")]),
  ("justify-center", [("primaryAxisAlignItems", FVal.str "CENTER")]),
  ("gap-4", [("itemSpacing", FVal.num 16)]),
  ("w-full", [("constraints", FVal.obj [("horizontal", FVal.str "SCALE"),
    ("vertical", FVal.str "SCALE")]), ("minWidth", FVal.num 0)]),
  ("h-24", [("height", FVal.num 96)]),
  ("w-24", [("width", FVal.num 96)]),
  ("min-w-[72px]", [("minWidth", FVal.num 72)]),
  ("p-4", [("paddingTop", FVal.num 16), ("paddingBottom", FVal.num 16),
    ("paddingLeft", FVal.num 16), ("paddingRight", FVal.num 16)]),
  ("py-2", [("paddingTop", FVal.num 8), ("paddingBottom", FVal.num 8)]),
  ("px-3", [("paddingLeft", FVal.num 12), ("paddingRight", FVal.num 12)]),
  ("mb-4", [("marginBottom", FVal.num 16)]),
  ("text-lg", [("fontSize", FVal.num 18), ("lineHeight", FVal.num 28)]),
  ("text-sm", [("fontSize", FVal.num 14), ("lineHeight", FVal.num 20)]),
  ("font-semibold", [("fontWeight", FVal.num 600)]),
  ("text-textPrimary", [("fills", FVal.arr [FVal.obj [("type", FVal.str "SOLID"),
    ("color", FVal.obj [("r", FVal.flt (1/10)), ("g", FVal.flt (1/10)),
      ("b", FVal.flt (1/10))])]])]),
  ("bg-surface", [("fills", FVal.arr [FVal.obj [("type", FVal.str "SOLID"),
    ("color", FVal.obj [("r", FVal.num 1), ("g", FVal.num 1), ("b", FVal.num 1)])]])]),
  ("bg-primary/10", [("fills", FVal.arr [FVal.obj [("type", FVal.str "SOLID"),
    ("color", FVal.obj [("r", FVal.flt (9/10)), ("g", FVal.flt (9/10)),
      ("b", FVal.flt (9/10))]), ("opacity", FVal.flt (1/10))]])]),
  ("border", [("strokes", FVal.arr [FVal.obj [("type", FVal.str "SOLID"),
    ("color", FVal.obj [("r", FVal.flt (9/10)), ("g", FVal.flt (9/10)),
      ("b", FVal.flt (9/10))])]]), ("strokeWeight", FVal.num 1)]),
  ("rounded-xl", [("cornerRadius", FVal.num 12)]),
  ("rounded-lg", [("cornerRadius", FVal.num 8)]),
  ("shadow-sm", [("effects", FVal.arr [FVal.obj [("type", FVal.str "DROP_SHADOW"),
    ("color", FVal.obj [("r", FVal.num 0), ("g", FVal.num 0), ("b", FVal.num 0),
      ("a", FVal.flt (1/10))]),
    ("offset", FVal.obj [("x", FVal.num 0), ("y", FVal.num 1)]),
    ("radius", FVal.num 2)]])]),
  ("absolute", [("positioning", FVal.str "ABSOLUTE")]),
  ("top-3", [("y", FVal.num 12)]),
  ("left-3", [("x", FVal.num 12)])]

/-- resolve_tailwind_styles of the source: same fold over the Tailwind
table. -/
def resolve_tailwind_styles (classes : List String) : List (String × FVal) :=
  classes.foldl (fun styles cls =>
    match dget TAILWIND_TO_FIGMA cls with
    | some patch => dUpdate styles patch
    | none => styles) []

/-- Match result of color_regex: the first alternative captures the hex
digits after the hash sign (group 1, always nonempty, hence truthy); the
second alternative is the rgb or rgba functional form. -/
inductive CMatch where
  | hexDigits (ds : List Char)
  | rgbForm

/-- Tail of the rgb alternative after the opening parenthesis: digits,
comma, optional spaces, digits, comma, optional spaces, digits, then
either the closing parenthesis at the end of the string or a comma,
optional spaces, a digit-or-dot token and the closing parenthesis. -/
def rgbTail (cs : List Char) : Bool :=
  match takeDigits cs with
  | ([], _) => false
  | (_ :: _, r1) =>
    match r1 with
    | ',' :: r2 =>
      match takeDigits (r2.dropWhile isPySpace) with
      | ([], _) => false
      | (_ :: _, r3) =>
        match r3 with
        | ',' :: r4 =>
          match takeDigits (r4.dropWhile isPySpace) with
          | ([], _) => false
          | (_ :: _, r5) =>
            match r5 with
            | [')'] => true
            | ',' :: r6 =>
              match takeNumDot (r6.dropWhile isPySpace) with
              | ([], _) => false
              | (_ :: _, r7) => r7 = [')']
            | _ => false
        | _ => false
    | _ => false

/-- Embedding of color_regex (src/utils/html_parser.py, HTMLParser init):
a hash sign followed by 3, 4, 6 or 8 hex digits up to the end, or the
rgb or rgba form with integer components and an optional fractional
alpha token. -/
def colorRegexM (s : String) : Option CMatch :=
  match s.data with
  | '#' :: ds =>
    if (ds.length = 3 ∨ ds.length = 4 ∨ ds.length = 6 ∨ ds.length = 8)
        ∧ ds.all isHexChar then some (CMatch.hexDigits ds) else none
  | 'r' :: 'g' :: 'b' :: rest =>
    match rest with
    | 'a' :: '(' :: r => if rgbTail r then some CMatch.rgbForm else none
    | '(' :: r => if rgbTail r then some CMatch.rgbForm else none
    | _ => none
  | _ => none

/-- Doubling of every character, the expansion step of _hex_to_rgb for the
short hex forms. -/
def dupChars (cs : List Char) : List Char := cs.flatMap (fun c => [c, c])

/-- The expansion step of _hex_to_rgb: the 3 and 4 digit forms are
expanded by digit duplication, longer forms pass through. -/
def hexExpand (ds : List Char) : List Char :=
  if ds.length = 3 then dupChars ds
  else if ds.length = 4 then dupChars (ds.take 3) ++ dupChars (ds.drop 3)
  else ds

/-- HTMLParser._hex_to_rgb on the captured digits: expand, then read the
8-bit channel pairs and divide by 255; alpha defaults to 1 when at most 6
digits remain. -/
def hex_to_rgb (ds : List Char) : Color :=
  { r := ((hexNat ((hexExpand ds).take 2) : ℕ) : ℚ) / 255
    g := ((hexNat (((hexExpand ds).drop 2).take 2) : ℕ) : ℚ) / 255
    b := ((hexNat (((hexExpand ds).drop 4).take 2) : ℕ) : ℚ) / 255
    a := if (hexExpand ds).length > 6
         then ((hexNat (((hexExpand ds).drop 6).take 2) : ℕ) : ℚ) / 255 else 1 }

/-- The list comprehension of _rgb_str_to_dict: float applied to every
token; a failing conversion raises (none). -/
def floatAll : List (List Char) → Option (List ℚ)
  | [] => some []
  | t :: ts =>
    match pyFloatTok t with
    | none => none
    | some q =>
      match floatAll ts with
      | none => none
      | some qs => some (q :: qs)

/-- HTMLParser._rgb_str_to_dict: re-find all numeric tokens in the whole
string, convert with float, then build the channel record from 3 or 4
parts, with the opaque black fallback otherwise. -/
def rgb_str_to_dict (rgb_str : String) : Option Color :=
  match floatAll (findNumTokens rgb_str.data) with
  | none => none
  | some parts =>
    match parts with
    | [r, g, b] => some ⟨r / 255, g / 255, b / 255, 1⟩
    | [r, g, b, a] => some ⟨r / 255, g / 255, b / 255, a⟩
    | _ => some ⟨0, 0, 0, 1⟩

/-- HTMLParser._normalize_color: no regex match gives opaque black; a
truthy group 1 (the hex digits) goes to _hex_to_rgb; otherwise the rgb
path re-parses the original string. -/
def normalize_color (color : String) : Option Color :=
  match colorRegexM color with
  | none => some ⟨0, 0, 0, 1⟩
  | some (CMatch.hexDigits ds) => some (hex_to_rgb ds)
  | some CMatch.rgbForm => rgb_str_to_dict color

/-- Document node of the parsed soup: an element with tag, non-class
string attributes, the multi-valued class attribute and ordered children,
or a navigable string. -/
inductive HNode where
  | elem (tag : String) (attrs : List (String × String)) (classes : List String)
      (children : List HNode)
  | text (s : String)

/-- The HTMLNode dataclass of the source. -/
inductive HTMLNode where
  | mk (tag : String) (classes : List String) (children : List HTMLNode)
      (text : Option String) (attributes : List (String × String))
      (framework : Option Fw) (styles : List (String × String))
      (figma_styles : List (String × FVal))

def HTMLNode.tag : HTMLNode → String
  | .mk t _ _ _ _ _ _ _ => t

def HTMLNode.classes : HTMLNode → List String
  | .mk _ c _ _ _ _ _ _ => c

def HTMLNode.children : HTMLNode → List HTMLNode
  | .mk _ _ ch _ _ _ _ _ => ch

def HTMLNode.text : HTMLNode → Option String
  | .mk _ _ _ tx _ _ _ _ => tx

def HTMLNode.attributes : HTMLNode → List (String × String)
  | .mk _ _ _ _ a _ _ _ => a

def HTMLNode.framework : HTMLNode → Option Fw
  | .mk _ _ _ _ _ f _ _ => f

def HTMLNode.styles : HTMLNode → List (String × String)
  | .mk _ _ _ _ _ _ st _ => st

def HTMLNode.figma_styles : HTMLNode → List (String × FVal)
  | .mk _ _ _ _ _ _ _ fg => fg

/-- BeautifulSoup Tag.string: the single child when it is a string, the
string of the single child when there is exactly one child, else None. -/
def nodeString : HNode → Option String
  | .text s => some s
  | .elem _ _ _ children =>
    match children with
    | [c] => nodeString c
    | _ => none

/-- Step (b) of _parse_node: the text captured before recursion, guarded
by the truthiness of node.string and of node.string.strip(). -/
def initial_text (n : HNode) : Option String :=
  match nodeString n with
  | some s => if s ≠ "" ∧ pyStrip s ≠ "" then some (pyStrip s) else none
  | none => none

/-- Model of the process-stable CPython builtin hash on strings, as used
by _get_image_hash; only its determinism is observable, the concrete
value is a fixed stand-in (CPython randomises the seed per process but is
stable within one process). -/
def pyHash (s : String) : ℕ := s.data.foldl (fun a c => a * 31 + c.toNat) 0

/-- HTMLParser._get_image_hash: the image reference string derived from
the src url. -/
def get_image_hash (url : String) : String := "image-" ++ toString (pyHash url)

/-- dict.setdefault(key, []).append(v): append to the existing list, or
create a one-element list. A non-list existing value would raise in
Python; that case is unreachable because every value the transformer ever
stores under the fills and background keys is a list. -/
def appendFill (figma : List (String × FVal)) (key : String) (v : FVal) :
    List (String × FVal) :=
  match dget figma key with
  | some (FVal.arr xs) => dset figma key (FVal.arr (xs ++ [v]))
  | some _ => figma
  | none => dset figma key (FVal.arr [v])

/-- The image dimensions dict literal of the second _process_image_node
definition (the one Python keeps). -/
def image_node_dimensions : List (String × FVal) :=
  [("w-full", FVal.str "100%"), ("h-40", FVal.num 160),
   ("w-24", FVal.num 96), ("h-24", FVal.num 96)]

/-- Loop body of the class loop of _process_image_node: a class found in
the dimensions dict sets width (for a w- prefix) or height. -/
def image_node_dim_step (fg : List (String × FVal)) (cls : String) : List (String × FVal) :=
  match dget image_node_dimensions cls with
  | some v => dset fg (if strStartsStr cls "w-" then "width" else "height") v
  | none => fg

/-- HTMLParser._process_image_node (second definition, line 256): set the
src attribute and the image hash, apply the literal dimension classes,
then update with the fixed constraints and layout mode. -/
def process_image_node (attrs : List (String × String)) (classes : List String)
    (figma : List (String × FVal)) : List (String × String) × List (String × FVal) :=
  let p :=
    match dget attrs "src" with
    | some v => (dset attrs "src" v, dset figma "imageHash" (FVal.str (get_image_hash v)))
    | none => (attrs, figma)
  let figma2 := classes.foldl image_node_dim_step p.2
  (p.1, dUpdate figma2
    [("constraints", FVal.obj [("horizontal", FVal.str "SCALE"), ("vertical", FVal.str "SCALE")]),
     ("layoutMode", FVal.str "NONE")])

/-- The special dimension classes dict of _process_image_dimensions. -/
def special_dimension_classes : List (String × FVal) :=
  [("w-full", FVal.str "100%"), ("w-screen", FVal.str "100vw"),
   ("h-full", FVal.str "100%"), ("h-screen", FVal.str "100vh"),
   ("w-100", FVal.str "100%"), ("h-100", FVal.str "100%")]

/-- int(cls.split("-")[1]): the second dash-separated segment as a Python
int; none models both the IndexError and the ValueError the source
catches. -/
def secondSegInt (cls : String) : Option ℤ :=
  match splitOnChar '-' cls.data with
  | _ :: seg :: _ => pyIntStr ⟨seg⟩
  | _ => none

/-- Loop body of the first loop of _process_image_dimensions: numeric w-
and h- classes convert framework-dependently (tailwind and undetected
give pixels times 4, bootstrap gives a percentage string). The elif
branch of the source is an else here because every class reaching it
starts with w- or h-. -/
def image_dim_numeric_step (fw : Option Fw) (fg : List (String × FVal)) (cls : String) :
    List (String × FVal) :=
  if strStartsStr cls "w-" || strStartsStr cls "h-" then
    match secondSegInt cls with
    | some value =>
      let pixels : FVal :=
        match fw with
        | some Fw.tailwind => FVal.num (value * 4)
        | some Fw.bootstrap => FVal.str (toString value ++ "%")
        | none => FVal.num (value * 4)
      if strStartsStr cls "w-" then dset fg "width" pixels
      else dset fg "height" pixels
    | none => fg
  else fg

/-- Loop body of the second loop of _process_image_dimensions: the
special literal classes. -/
def image_dim_special_step (fg : List (String × FVal)) (cls : String) :
    List (String × FVal) :=
  match dget special_dimension_classes cls with
  | some v =>
    if strStartsStr cls "w-" then dset fg "width" v
    else dset fg "height" v
  | none => fg

/-- HTMLParser._process_image_dimensions, assembled from its two loops. -/
def process_image_dimensions (fw : Option Fw) (tag : String) (classes : List String)
    (figma : List (String × FVal)) : List (String × FVal) :=
  if tag = "img" then
    classes.foldl image_dim_special_step (classes.foldl (image_dim_numeric_step fw) figma)
  else figma

/-- The font weight keyword dict of _process_font_classes. -/
def font_weight_keywords : List (String × ℤ) :=
  [("light", 300), ("normal", 400), ("medium", 500), ("semibold", 600), ("bold", 700)]

/-- Combined effect of font_size_regex and the sizes dict of
_process_font_classes: the ten exact class names and their pixel sizes. -/
def font_size_classes : List (String × ℤ) :=
  [("text-xs", 12), ("text-sm", 14), ("text-base", 16), ("text-lg", 18),
   ("text-xl", 20), ("text-2xl", 24), ("text-3xl", 30), ("text-4xl", 36),
   ("text-5xl", 48), ("text-6xl", 60)]

/-- Last element of a split, modelling the Python index -1. -/
def lastSegAux : List (List Char) → List Char
  | [] => []
  | [g] => g
  | _ :: g :: gs => lastSegAux (g :: gs)

/-- cls.split("-")[-1] as a string. -/
def lastSeg (cls : String) : String := ⟨lastSegAux (splitOnChar '-' cls.data)⟩

/-- Loop body of _process_font_classes on the font_styles accumulator:
weight from any font- prefix with default 400, size from the exact
text-size classes, alignment from the four alignment classes. -/
def font_class_step (fs : List (String × FVal)) (cls : String) : List (String × FVal) :=
  let fs :=
    if strStartsStr cls "font-" then
      dset fs "fontWeight" (FVal.num
        (match dget font_weight_keywords (lastSeg cls) with
         | some w => w
         | none => 400))
    else fs
  let fs :=
    match dget font_size_classes cls with
    | some sz => dset fs "fontSize" (FVal.num sz)
    | none => fs
  if cls = "text-left" ∨ cls = "text-center" ∨ cls = "text-right" ∨ cls = "text-justify" then
    dset fs "textAlign" (FVal.str (pyUpper (lastSeg cls)))
  else fs

/-- HTMLParser._process_font_classes assembled: fold the step over the
classes into the empty font_styles dict, then update the figma bag. -/
def process_font_classes (classes : List String) (figma : List (String × FVal)) :
    List (String × FVal) :=
  dUpdate figma (classes.foldl font_class_step [])

/-- Embedding of dimension_regex: a single w or h, a dash, then one or
more digits up to the end; yields the group pair. -/
def dimension_regex_match (cls : String) : Option (Char × ℕ) :=
  match cls.data with
  | c :: '-' :: rest =>
    if (c = 'w' ∨ c = 'h') ∧ rest ≠ [] ∧ rest.all Char.isDigit
    then some (c, decNat rest) else none
  | _ => none

/-- Loop body of _process_dimension_classes: every matching class writes
the width or height key with the numeric group times 4. -/
def dimension_class_step (fg : List (String × FVal)) (cls : String) :
    List (String × FVal) :=
  match dimension_regex_match cls with
  | some (g1, n) =>
    dset fg (if g1 = 'w' then "width" else "height") (FVal.num ((n : ℤ) * 4))
  | none => fg

/-- HTMLParser._process_dimension_classes assembled from its loop. -/
def process_dimension_classes (classes : List String) (figma : List (String × FVal)) :
    List (String × FVal) :=
  classes.foldl dimension_class_step figma

/-- Model of cssutils.parseStyle at the granularity the transformer
observes: semicolon-separated declarations, a colon between name and
value, both trimmed, names lowercased, malformed declarations dropped. -/
def parse_inline_styles (style_str : String) : List (String × String) :=
  (splitOnChar ';' style_str.data).foldl (fun acc decl =>
    match splitOnChar ':' decl with
    | [n, v] =>
      let name := pyLower (pyStrip ⟨n⟩)
      let value := pyStrip ⟨v⟩
      if name ≠ "" ∧ value ≠ "" then dset acc name value else acc
    | _ => acc) []

/-- HTMLParser._apply_font_styles: the four mapped properties in the
insertion order of the font_mapping dict; every failing conversion is
caught and only logged. -/
def apply_font_styles (styles : List (String × String)) (figma : List (String × FVal)) :
    List (String × FVal) :=
  let figma :=
    match dget styles "font-size" with
    | some v =>
      match pyFloatStr (removePxStr v) with
      | some q => dset figma "fontSize" (FVal.num (pyTrunc q))
      | none => figma
    | none => figma
  let figma :=
    match dget styles "font-weight" with
    | some v =>
      match pyIntStr v with
      | some z => dset figma "fontWeight" (FVal.num z)
      | none => figma
    | none => figma
  let figma :=
    match dget styles "text-align" with
    | some v => dset figma "textAlign" (FVal.str (pyUpper v))
    | none => figma
  match dget styles "line-height" with
  | some v =>
    match pyFloatStr (removePxStr v) with
    | some q => dset figma "lineHeight"
        (FVal.obj [("unit", FVal.str "PIXELS"), ("value", FVal.num (pyTrunc q))])
    | none => figma
  | none => figma

/-- A solid fill record around a normalized color. -/
def solidFill (c : Color) : FVal :=
  FVal.obj [("type", FVal.str "SOLID"), ("color", colorToFVal c)]

/-- HTMLParser._apply_color_styles: color appends to fills, then
background-color appends to background; _normalize_color has no local
exception handler, so its failure escapes the node (none). -/
def apply_color_styles (styles : List (String × String)) (figma : List (String × FVal)) :
    Option (List (String × FVal)) :=
  let step1 :=
    match dget styles "color" with
    | some v =>
      match normalize_color v with
      | some c => some (appendFill figma "fills" (solidFill c))
      | none => none
    | none => some figma
  match step1 with
  | none => none
  | some fg =>
    match dget styles "background-color" with
    | some v =>
      match normalize_color v with
      | some c => some (appendFill fg "background" (solidFill c))
      | none => none
    | none => some fg

/-- The color mapping dict of _process_text_color_classes. -/
def text_color_mapping : List (String × FVal) :=
  [("text-textPrimary", FVal.obj [("r", FVal.flt (1/10)), ("g", FVal.flt (1/10)),
     ("b", FVal.flt (1/10))]),
   ("text-textSecondary", FVal.obj [("r", FVal.flt (4/10)), ("g", FVal.flt (4/10)),
     ("b", FVal.flt (4/10))]),
   ("text-primary", FVal.obj [("r", FVal.num 0), ("g", FVal.flt (47/100)),
     ("b", FVal.num 1)]),
   ("text-warning", FVal.obj [("r", FVal.num 1), ("g", FVal.flt (8/10)),
     ("b", FVal.num 0)])]

/-- Loop body of _process_text_color_classes: every mapped class appends
a solid fill with the hardcoded color. -/
def text_color_step (fg : List (String × FVal)) (cls : String) : List (String × FVal) :=
  match dget text_color_mapping cls with
  | some col => appendFill fg "fills" (FVal.obj [("type", FVal.str "SOLID"), ("color", col)])
  | none => fg

/-- HTMLParser._process_text_color_classes assembled from its loop. -/
def process_text_color_classes (classes : List String) (figma : List (String × FVal)) :
    List (String × FVal) :=
  classes.foldl text_color_step figma

/-- Step (d) of _parse_node: when a style attribute exists, parse it,
update the styles dict, apply the font styles and then the color styles
(whose normalize failure escapes). -/
def inline_step (attrs : List (String × String)) (figma : List (String × FVal)) :
    Option (List (String × String) × List (String × FVal)) :=
  match dget attrs "style" with
  | some sv =>
    let parsed := parse_inline_styles sv
    let figma1 := apply_font_styles parsed figma
    match apply_color_styles parsed figma1 with
    | some figma2 => some (dUpdate [] parsed, figma2)
    | none => none
  | none => some ([], figma)

mutual
/-- All element nodes of a subtree in document (preorder, depth-first)
order, the order BeautifulSoup find_all searches. -/
def elemsOf : HNode → List HNode
  | HNode.text _ => []
  | HNode.elem t a c kids => HNode.elem t a c kids :: elemsOfList kids

/-- All element nodes of a forest in document order. -/
def elemsOfList : List HNode → List HNode
  | [] => []
  | n :: rest => elemsOf n ++ elemsOfList rest
end

/-- The tailwind class pattern of _detect_framework: bg, text or border,
a dash, one or more lowercase letters, a dash, exactly three digits. -/
def twClassPattern (c : String) : Bool :=
  let tail3 : List Char → Bool := fun rest =>
    let p := rest.span (fun ch => 'a' ≤ ch && ch ≤ 'z')
    (!p.1.isEmpty) &&
      (match p.2 with
       | '-' :: d1 :: d2 :: d3 :: [] => d1.isDigit && d2.isDigit && d3.isDigit
       | _ => false)
  let cs := c.data
  if startsWithL cs "bg-".data then tail3 (cs.drop 3)
  else if startsWithL cs "text-".data then tail3 (cs.drop 5)
  else if startsWithL cs "border-".data then tail3 (cs.drop 7)
  else false

/-- Bootstrap signal of _detect_framework: a link element whose truthy
href contains the substring bootstrap. -/
def isBootstrapLink : HNode → Bool
  | HNode.elem tag attrs _ _ =>
    tag = "link" &&
      (match dget attrs "href" with
       | some v => strHasSub v "bootstrap"
       | none => false)
  | HNode.text _ => false

/-- Tailwind signal of _detect_framework: a script element whose truthy
src contains the substring tailwind, or any element with a class matching
the tailwind pattern. -/
def isTailwindSignal : HNode → Bool
  | HNode.elem tag attrs classes _ =>
    (tag = "script" &&
      (match dget attrs "src" with
       | some v => strHasSub v "tailwind"
       | none => false)) || classes.any twClassPattern
  | HNode.text _ => false

def hasBootstrapSignal (doc : List HNode) : Bool :=
  (elemsOfList doc).any isBootstrapLink

def hasTailwindSignal (doc : List HNode) : Bool :=
  (elemsOfList doc).any isTailwindSignal

/-- HTMLParser._detect_framework: sets the stored framework on a
bootstrap signal, else on a tailwind signal, and otherwise RETURNS
WITHOUT RESETTING the previously stored value (the method has no else
branch writing None). -/
def detect_framework (st : Option Fw) (doc : List HNode) : Option Fw :=
  if hasBootstrapSignal doc then some Fw.bootstrap
  else if hasTailwindSignal doc then some Fw.tailwind
  else st

/-- soup.body: the first body element in document order. -/
def findBody (doc : List HNode) : Option HNode :=
  (elemsOfList doc).find? (fun n =>
    match n with
    | HNode.elem tag _ _ _ => tag = "body"
    | HNode.text _ => false)

/-- The empty figma bag value a fresh HTMLNode starts with. -/
def emptyFigma : List (String × FVal) := []

mutual
/-- HTMLParser._parse_node on one element, steps in source order:
(a) construct with tag, classes, attributes and the detected framework;
(b) capture node.string when non-blank; (c) image handling; (d) inline
styles (the only step that can raise, via _normalize_color); (e) text
color classes; (f) image dimension classes; (g) framework table
resolution, an ASSIGNMENT that replaces the bag; (h) font classes and
generic dimension classes; then the child loop. The text constructor case
is never reached: the child loop only recurses into element nodes. -/
def parse_node (fw : Option Fw) : HNode → Option HTMLNode
  | HNode.text _ => none
  | HNode.elem tag attrs classes kids =>
    let text0 := initial_text (HNode.elem tag attrs classes kids)
    let p := if tag = "img" then process_image_node attrs classes emptyFigma
             else (attrs, emptyFigma)
    match inline_step attrs p.2 with
    | none => none
    | some sf =>
      let figma3 := process_text_color_classes classes sf.2
      let figma4 := process_image_dimensions fw tag classes figma3
      let figma5 :=
        match fw with
        | some Fw.bootstrap => resolve_bootstrap_styles classes
        | some Fw.tailwind => resolve_tailwind_styles classes
        | none => figma4
      let figma6 := process_font_classes classes figma5
      let figma7 := process_dimension_classes classes figma6
      match parse_kids fw text0 kids with
      | none => none
      | some r =>
        some (HTMLNode.mk tag classes r.1 r.2 p.1 fw sf.1 figma7)

/-- The child loop of _parse_node: element children are parsed and
appended in order; non-blank string children overwrite the text value
(last one wins); a child failure escapes. -/
def parse_kids (fw : Option Fw) (t : Option String) :
    List HNode → Option (List HTMLNode × Option String)
  | [] => some ([], t)
  | HNode.text s :: rest =>
    parse_kids fw (if pyStrip s ≠ "" then some (pyStrip s) else t) rest
  | HNode.elem tg a c k :: rest =>
    match parse_node fw (HNode.elem tg a c k) with
    | none => none
    | some n =>
      match parse_kids fw t rest with
      | none => none
      | some r => some (n :: r.1, r.2)
end

/-- HTMLParser.parse as a state transformer: the instance state is the
stored framework; detection runs first (mutating the state), then either
the body element is transformed or the default body node is returned. -/
def parse (st : Option Fw) (doc : List HNode) : Option Fw × Option HTMLNode :=
  let fw := detect_framework st doc
  match findBody doc with
  | some body => (fw, parse_node fw body)
  | none => (fw, some (HTMLNode.mk "body" [] [] none [] none [] []))

/-- The step function of the two resolver folds, abstracted over the
table; both resolvers are definitionally this fold. -/
def tableStep (T : List (String × List (String × FVal)))
    (styles : List (String × FVal)) (cls : String) : List (String × FVal) :=
  match dget T cls with
  | some patch => dUpdate styles patch
  | none => styles

/-- The parsed node of a successful parse, with a dummy default; used to
state closed corollaries about concrete documents. -/
def getNode (r : Option HTMLNode) : HTMLNode :=
  r.getD (HTMLNode.mk "" [] [] none [] none [] [])

/-- The non-blank stripped value of a string child, the values the child
loop assigns to the text field; none for element children and blank
strings. -/
def textVal : HNode → Option String
  | HNode.text s => if pyStrip s ≠ "" then some (pyStrip s) else none
  | HNode.elem _ _ _ _ => none

/-- Last element of a list of strings, as an option. -/
def lastVal : List String → Option String
  | [] => none
  | [a] => some a
  | _ :: b :: t => lastVal (b :: t)

/-- Concrete document with a Bootstrap stylesheet link and an image with
a src attribute inside the body. -/
def bootstrapImgDoc : List HNode :=
  [HNode.elem "html" [] []
    [HNode.elem "head" [] []
      [HNode.elem "link" [("href", "cdn/bootstrap.min.css")] [] []],
     HNode.elem "body" [] []
      [HNode.elem "img" [("src", "a.png")] [] []]]]

/-- Concrete document with no framework signal at all. -/
def plainBodyDoc : List HNode :=
  [HNode.elem "html" [] [] [HNode.elem "body" [] [] []]]

/-! Lemmas about the dict operations. -/

theorem dget_dset {α : Type} (m : List (String × α)) (k k2 : String) (v : α) :
    dget (dset m k v) k2 = if k2 = k then some v else dget m k2 := by
  induction m with
  | nil =>
    by_cases h : k2 = k
    · subst h; simp [dset, dget]
    · simp [dset, dget, h, Ne.symm h]
  | cons kv m ih =>
    obtain ⟨k1, v1⟩ := kv
    by_cases h1 : k1 = k
    · subst h1
      by_cases h2 : k2 = k1
      · subst h2; simp [dset, dget]
      · simp [dset, dget, h2, Ne.symm h2]
    · by_cases h2 : k2 = k1
      · subst h2
        simp [dset, dget, h1, Ne.symm h1]
      · simp [dset, dget, h1, h2, Ne.symm h2, ih]

theorem dget_eq_none_of_not_mem {α : Type} (p : List (String × α)) (k : String)
    (h : k ∉ p.map Prod.fst) : dget p k = none := by
  induction p with
  | nil => rfl
  | cons kv p ih =>
    obtain ⟨k1, v1⟩ := kv
    simp only [List.map_cons, List.mem_cons, not_or] at h
    simp [dget, Ne.symm h.1, ih h.2]

theorem dget_dUpdate_of_none {α : Type} (m p : List (String × α)) (k : String)
    (h : dget p k = none) : dget (dUpdate m p) k = dget m k := by
  induction p generalizing m with
  | nil => rfl
  | cons kv p ih =>
    obtain ⟨k1, v1⟩ := kv
    by_cases hk : k1 = k
    · subst hk; simp [dget] at h
    · simp only [dget, if_neg hk] at h
      show dget (dUpdate (dset m k1 v1) p) k = dget m k
      rw [ih (dset m k1 v1) h, dget_dset, if_neg (Ne.symm hk)]

theorem dget_dUpdate_of_some {α : Type} (m p : List (String × α)) (k : String) (v : α)
    (hnd : (p.map Prod.fst).Nodup) (h : dget p k = some v) :
    dget (dUpdate m p) k = some v := by
  induction p generalizing m with
  | nil => simp [dget] at h
  | cons kv p ih =>
    obtain ⟨k1, v1⟩ := kv
    simp only [List.map_cons, List.nodup_cons] at hnd
    by_cases hk : k1 = k
    · subst hk
      simp only [dget, if_true, eq_self_iff_true, Option.some.injEq] at h
      show dget (dUpdate (dset m k1 v1) p) k1 = some v
      rw [dget_dUpdate_of_none _ _ _ (dget_eq_none_of_not_mem p k1 hnd.1),
        dget_dset, if_pos rfl, h]
    · simp only [dget, if_neg hk] at h
      show dget (dUpdate (dset m k1 v1) p) k = some v
      exact ih (dset m k1 v1) hnd.2 h

/-! Lemmas about the resolver folds. -/

theorem resolve_bootstrap_eq_foldl (classes : List String) :
    resolve_bootstrap_styles classes = classes.foldl (tableStep BOOTSTRAP_TO_FIGMA) [] := rfl

theorem resolve_tailwind_eq_foldl (classes : List String) :
    resolve_tailwind_styles classes = classes.foldl (tableStep TAILWIND_TO_FIGMA) [] := rfl

theorem foldl_tableStep_preserve (T : List (String × List (String × FVal)))
    (post : List String) (acc : List (String × FVal)) (k : String)
    (h : ∀ c2 ∈ post, ∀ p2, dget T c2 = some p2 → dget p2 k = none) :
    dget (post.foldl (tableStep T) acc) k = dget acc k := by
  induction post generalizing acc with
  | nil => rfl
  | cons c post ih =>
    rw [List.foldl_cons,
      ih (tableStep T acc c) (fun c2 hc2 => h c2 (List.mem_cons_of_mem _ hc2))]
    unfold tableStep
    cases hc : dget T c with
    | none => rfl
    | some p => exact dget_dUpdate_of_none acc p k (h c (List.mem_cons_self _ _) p hc)

/-- C5: resolution iterates the ordered class list, merging the patch of
every class found in the table with later patches overwriting colliding
keys (first conjunct: the contribution of a class whose key no later
class overrides survives to the output), silently skipping classes absent
from the table (second conjunct), and the Bootstrap resolution of the
list d-flex, align-items-center, p-3 contains layoutMode HORIZONTAL,
counterAxisAlignItems CENTER, and all four padding keys equal to 16
(remaining conjuncts). -/
theorem C5_resolver_fold_semantics :
    (∀ (pre post : List String) (c k : String) (patch : List (String × FVal)) (v : FVal),
        dget BOOTSTRAP_TO_FIGMA c = some patch →
        (patch.map Prod.fst).Nodup →
        dget patch k = some v →
        (∀ c2 ∈ post, ∀ p2, dget BOOTSTRAP_TO_FIGMA c2 = some p2 → dget p2 k = none) →
        dget (resolve_bootstrap_styles (pre ++ c :: post)) k = some v)
    ∧ (∀ (pre post : List String) (c : String),
        dget BOOTSTRAP_TO_FIGMA c = none →
        resolve_bootstrap_styles (pre ++ c :: post) = resolve_bootstrap_styles (pre ++ post))
    ∧ dget (resolve_bootstrap_styles ["d-flex", "align-items-center", "p-3"]) "layoutMode"
        = some (FVal.str "HORIZONTAL")
    ∧ dget (resolve_bootstrap_styles ["d-flex", "align-items-center", "p-3"]) "counterAxisAlignItems"
        = some (FVal.str "CENTER")
    ∧ dget (resolve_bootstrap_styles ["d-flex", "align-items-center", "p-3"]) "paddingTop"
        = some (FVal.num 16)
    ∧ dget (resolve_bootstrap_styles ["d-flex", "align-items-center", "p-3"]) "paddingBottom"
        = some (FVal.num 16)
    ∧ dget (resolve_bootstrap_styles ["d-flex", "align-items-center", "p-3"]) "paddingLeft"
        = some (FVal.num 16)
    ∧ dget (resolve_bootstrap_styles ["d-flex", "align-items-center", "p-3"]) "paddingRight"
        = some (FVal.num 16) := by
  refine ⟨?_, ?_, rfl, rfl, rfl, rfl, rfl, rfl⟩
  · intro pre post c k patch v hc hnd hv hpost
    rw [resolve_bootstrap_eq_foldl, List.foldl_append, List.foldl_cons,
      foldl_tableStep_preserve _ post _ k hpost]
    unfold tableStep
    rw [hc]
    exact dget_dUpdate_of_some _ patch k v hnd hv
  · intro pre post c hc
    rw [resolve_bootstrap_eq_foldl, resolve_bootstrap_eq_foldl,
      List.foldl_append, List.foldl_append, List.foldl_cons]
    unfold tableStep
    rw [hc]

/-- Witness for C5: the first conjunct applied to the concrete class list
with an unknown leading class, and the second conjunct applied to a
concrete unknown class. -/
theorem C5_witness :
    dget (resolve_bootstrap_styles ["no-such-class", "p-3"]) "paddingLeft"
        = some (FVal.num 16)
    ∧ resolve_bootstrap_styles ["d-flex", "no-such-class"]
        = resolve_bootstrap_styles ["d-flex"] :=
  ⟨C5_resolver_fold_semantics.1 ["no-such-class"] [] "p-3" "paddingLeft" _ (FVal.num 16)
      rfl (by decide) rfl (by simp),
   C5_resolver_fold_semantics.2.1 ["d-flex"] [] "no-such-class" rfl⟩

/-! Lemmas about characters and the color normalizer. -/

theorem char_digit_bounds {c : Char} (h : c.isDigit = true) :
    48 ≤ c.toNat ∧ c.toNat ≤ 57 := by
  simp only [Char.isDigit, ge_iff_le, Bool.and_eq_true, decide_eq_true_eq] at h
  obtain ⟨h1, h2⟩ := h
  rw [UInt32.le_def, BitVec.le_def] at h1 h2
  exact ⟨h1, h2⟩

theorem char_between_bounds {c lo hi : Char} (h1 : lo ≤ c) (h2 : c ≤ hi) :
    lo.toNat ≤ c.toNat ∧ c.toNat ≤ hi.toNat := by
  rw [Char.le_def, UInt32.le_def, BitVec.le_def] at h1 h2
  exact ⟨h1, h2⟩

theorem hexVal_le (c : Char) : hexVal c ≤ 15 := by
  unfold hexVal
  split_ifs with h1 h2 h3
  · have := char_digit_bounds h1
    omega
  · rw [Bool.and_eq_true, decide_eq_true_eq, decide_eq_true_eq] at h2
    have := char_between_bounds h2.1 h2.2
    have ha : ('a' : Char).toNat = 97 := rfl
    have hf : ('f' : Char).toNat = 102 := rfl
    omega
  · rw [Bool.and_eq_true, decide_eq_true_eq, decide_eq_true_eq] at h3
    have := char_between_bounds h3.1 h3.2
    have ha : ('A' : Char).toNat = 65 := rfl
    have hf : ('F' : Char).toNat = 70 := rfl
    omega
  · omega

theorem hexNat_le_255 (cs : List Char) (h : cs.length ≤ 2) : hexNat cs ≤ 255 := by
  match cs with
  | [] => simp [hexNat]
  | [a] =>
    have := hexVal_le a
    simp only [hexNat, List.foldl_cons, List.foldl_nil]
    omega
  | [a, b] =>
    have := hexVal_le a
    have := hexVal_le b
    simp only [hexNat, List.foldl_cons, List.foldl_nil]
    omega
  | _ :: _ :: _ :: _ => simp at h

theorem hex_channel_bounds (l : List Char) :
    0 ≤ ((hexNat (l.take 2) : ℕ) : ℚ) / 255 ∧ ((hexNat (l.take 2) : ℕ) : ℚ) / 255 ≤ 1 := by
  have hle : hexNat (l.take 2) ≤ 255 := hexNat_le_255 _ (by simp)
  constructor
  · positivity
  · rw [div_le_one (by norm_num)]
    exact_mod_cast hle

theorem colorRegexM_hex (ds : List Char)
    (hlen : ds.length = 3 ∨ ds.length = 4 ∨ ds.length = 6 ∨ ds.length = 8)
    (hhex : ∀ c ∈ ds, isHexChar c = true) :
    colorRegexM ⟨'#' :: ds⟩ = some (CMatch.hexDigits ds) := by
  have h : colorRegexM ⟨'#' :: ds⟩ =
      if (ds.length = 3 ∨ ds.length = 4 ∨ ds.length = 6 ∨ ds.length = 8)
          ∧ ds.all isHexChar then some (CMatch.hexDigits ds) else none := rfl
  rw [h, if_pos ⟨hlen, by simpa [List.all_eq_true] using hhex⟩]

/-- C8: for every supported hex digit string (length 3, 4, 6 or 8), the
normalizer takes the hex path, every output channel lies in the unit
interval, alpha is exactly 1 for the 6-digit form, and the short form fff
normalizes to opaque white. -/
theorem C8_hex_color_bounds :
    (∀ ds : List Char,
        (ds.length = 3 ∨ ds.length = 4 ∨ ds.length = 6 ∨ ds.length = 8) →
        (∀ c ∈ ds, isHexChar c = true) →
        normalize_color ⟨'#' :: ds⟩ = some (hex_to_rgb ds)
        ∧ (0 ≤ (hex_to_rgb ds).r ∧ (hex_to_rgb ds).r ≤ 1)
        ∧ (0 ≤ (hex_to_rgb ds).g ∧ (hex_to_rgb ds).g ≤ 1)
        ∧ (0 ≤ (hex_to_rgb ds).b ∧ (hex_to_rgb ds).b ≤ 1)
        ∧ (0 ≤ (hex_to_rgb ds).a ∧ (hex_to_rgb ds).a ≤ 1)
        ∧ (ds.length = 6 → (hex_to_rgb ds).a = 1))
    ∧ normalize_color "#fff" = some ⟨1, 1, 1, 1⟩ := by
  constructor
  · intro ds hlen hhex
    refine ⟨?_, hex_channel_bounds _, hex_channel_bounds _, hex_channel_bounds _, ?_, ?_⟩
    · show (match colorRegexM ⟨'#' :: ds⟩ with
        | none => some ⟨0, 0, 0, 1⟩
        | some (CMatch.hexDigits ds) => some (hex_to_rgb ds)
        | some CMatch.rgbForm => rgb_str_to_dict ⟨'#' :: ds⟩) = some (hex_to_rgb ds)
      rw [colorRegexM_hex ds hlen hhex]
    · have ha : (hex_to_rgb ds).a =
          if (hexExpand ds).length > 6
          then ((hexNat (((hexExpand ds).drop 6).take 2) : ℕ) : ℚ) / 255 else 1 := rfl
      rw [ha]
      by_cases hgt : (hexExpand ds).length > 6
      · rw [if_pos hgt]
        exact hex_channel_bounds _
      · rw [if_neg hgt]
        norm_num
    · intro h6
      have he : hexExpand ds = ds := by
        unfold hexExpand
        rw [if_neg (by omega), if_neg (by omega)]
      have ha : (hex_to_rgb ds).a =
          if (hexExpand ds).length > 6
          then ((hexNat (((hexExpand ds).drop 6).take 2) : ℕ) : ℚ) / 255 else 1 := rfl
      rw [ha, he, h6]
      norm_num
  · have h : normalize_color "#fff" =
        some ⟨((255 : ℕ) : ℚ) / 255, ((255 : ℕ) : ℚ) / 255, ((255 : ℕ) : ℚ) / 255, 1⟩ := rfl
    rw [h]
    norm_num

/-- Witness for C8: the general conjunct applied to the concrete 4-digit
string a1b2, projected onto the path equation and the red channel
bounds. -/
theorem C8_witness :
    normalize_color ⟨'#' :: ['a', '1', 'b', '2']⟩ = some (hex_to_rgb ['a', '1', 'b', '2'])
    ∧ (0 ≤ (hex_to_rgb ['a', '1', 'b', '2']).r ∧ (hex_to_rgb ['a', '1', 'b', '2']).r ≤ 1) :=
  ⟨(C8_hex_color_bounds.1 ['a', '1', 'b', '2'] (by decide) (by decide)).1,
   (C8_hex_color_bounds.1 ['a', '1', 'b', '2'] (by decide) (by decide)).2.1⟩

/-- C9: every string matching neither regex alternative normalizes to the
opaque black fallback without raising, and the two concrete examples
not-a-color (no match) and rgb(0,0,0) (rgb path) both yield opaque
black. -/
theorem C9_color_fallback :
    (∀ s : String, colorRegexM s = none → normalize_color s = some ⟨0, 0, 0, 1⟩)
    ∧ normalize_color "not-a-color" = some ⟨0, 0, 0, 1⟩
    ∧ normalize_color "rgb(0,0,0)" = some ⟨0, 0, 0, 1⟩ := by
  refine ⟨?_, rfl, ?_⟩
  · intro s h
    unfold normalize_color
    rw [h]
  · have h : normalize_color "rgb(0,0,0)" =
        some ⟨((0 : ℕ) : ℚ) / 255, ((0 : ℕ) : ℚ) / 255, ((0 : ℕ) : ℚ) / 255, 1⟩ := rfl
    rw [h]
    norm_num

/-- Witness for C9: the general fallback conjunct applied to a concrete
non-matching string. -/
theorem C9_witness : normalize_color "xyz" = some ⟨0, 0, 0, 1⟩ :=
  C9_color_fallback.1 "xyz" rfl

theorem pyFloatTok_digits (a : List Char) (ha : a ≠ [])
    (had : ∀ x ∈ a, x.isDigit = true) :
    pyFloatTok a = some ((decNat a : ℕ) : ℚ) := by
  have hdot : a.count '.' = 0 :=
    List.count_eq_zero.mpr (fun hmem => absurd (had '.' hmem) (by decide))
  unfold pyFloatTok
  rw [if_pos hdot, if_neg ha]

/-- C10: whenever the color regex accepts an rgb or rgba string whose
numeric tokens are exactly three integer components, every output channel
is the component value divided by 255 with no clamping and alpha is
exactly 1; in particular rgb(999, 0, 0) yields a red channel of 999/255,
which exceeds 1. -/
theorem C10_rgb_channels_unclamped :
    (∀ (s : String) (a b c : List Char),
        colorRegexM s = some CMatch.rgbForm →
        findNumTokens s.data = [a, b, c] →
        a ≠ [] → (∀ x ∈ a, x.isDigit = true) →
        b ≠ [] → (∀ x ∈ b, x.isDigit = true) →
        c ≠ [] → (∀ x ∈ c, x.isDigit = true) →
        normalize_color s = some ⟨((decNat a : ℕ) : ℚ) / 255,
          ((decNat b : ℕ) : ℚ) / 255, ((decNat c : ℕ) : ℚ) / 255, 1⟩)
    ∧ normalize_color "rgb(999, 0, 0)"
        = some ⟨(999 : ℚ) / 255, (0 : ℚ) / 255, (0 : ℚ) / 255, 1⟩
    ∧ 1 < (999 : ℚ) / 255 := by
  refine ⟨?_, ?_, by norm_num⟩
  · intro s a b c hmatch htok ha hda hb hdb hc hdc
    unfold normalize_color
    rw [hmatch]
    unfold rgb_str_to_dict
    rw [htok]
    simp only [floatAll, pyFloatTok_digits a ha hda, pyFloatTok_digits b hb hdb,
      pyFloatTok_digits c hc hdc]
  · have h : normalize_color "rgb(999, 0, 0)" =
        some ⟨((999 : ℕ) : ℚ) / 255, ((0 : ℕ) : ℚ) / 255, ((0 : ℕ) : ℚ) / 255, 1⟩ := rfl
    rw [h]
    norm_num

/-- Witness for C10: the general conjunct applied to the concrete string
rgb(12, 34, 255). -/
theorem C10_witness :
    normalize_color "rgb(12, 34, 255)"
      = some ⟨((decNat ['1', '2'] : ℕ) : ℚ) / 255, ((decNat ['3', '4'] : ℕ) : ℚ) / 255,
          ((decNat ['2', '5', '5'] : ℕ) : ℚ) / 255, 1⟩ :=
  C10_rgb_channels_unclamped.1 "rgb(12, 34, 255)" ['1', '2'] ['3', '4'] ['2', '5', '5']
    rfl rfl (by decide) (by decide) (by decide) (by decide) (by decide) (by decide)

/-! Lemmas about the per-node style passes of _parse_node. -/

theorem dget_dset_ne {α : Type} (m : List (String × α)) (k k2 : String) (v : α)
    (h : k2 ≠ k) : dget (dset m k v) k2 = dget m k2 := by
  rw [dget_dset, if_neg h]

theorem dget_foldl_preserve_mem {β : Type} (F : List (String × FVal) → β → List (String × FVal))
    (k : String) (l : List β)
    (h : ∀ b ∈ l, ∀ fg, dget (F fg b) k = dget fg k) :
    ∀ fg, dget (l.foldl F fg) k = dget fg k := by
  induction l with
  | nil => intro fg; rfl
  | cons b l ih =>
    intro fg
    rw [List.foldl_cons, ih (fun b2 hb2 fg2 => h b2 (List.mem_cons_of_mem _ hb2) fg2),
      h b (List.mem_cons_self _ _)]

theorem dget_foldl_preserve {β : Type} (F : List (String × FVal) → β → List (String × FVal))
    (k : String) (l : List β)
    (h : ∀ fg b, dget (F fg b) k = dget fg k) :
    ∀ fg, dget (l.foldl F fg) k = dget fg k :=
  dget_foldl_preserve_mem F k l (fun b _ fg => h fg b)

theorem dget_appendFill_ne (fg : List (String × FVal)) (key : String) (v : FVal)
    (k : String) (h : k ≠ key) : dget (appendFill fg key v) k = dget fg k := by
  unfold appendFill
  split
  · rw [dget_dset_ne _ _ _ _ h]
  · rfl
  · rw [dget_dset_ne _ _ _ _ h]

theorem dget_text_color_step_ne (fg : List (String × FVal)) (cls : String)
    (k : String) (h : k ≠ "fills") : dget (text_color_step fg cls) k = dget fg k := by
  unfold text_color_step
  split
  · rw [dget_appendFill_ne _ _ _ _ h]
  · rfl

theorem dget_ptcc_ne (classes : List String) (fg : List (String × FVal)) (k : String)
    (h : k ≠ "fills") : dget (process_text_color_classes classes fg) k = dget fg k :=
  dget_foldl_preserve _ _ classes (fun fg2 b => dget_text_color_step_ne fg2 b k h) fg

theorem dget_image_dim_numeric_step_ne (fw : Option Fw) (fg : List (String × FVal))
    (cls k : String) (hw : k ≠ "width") (hh : k ≠ "height") :
    dget (image_dim_numeric_step fw fg cls) k = dget fg k := by
  unfold image_dim_numeric_step
  repeat' split
  all_goals first
    | rfl
    | rw [dget_dset_ne _ _ _ _ hw]
    | rw [dget_dset_ne _ _ _ _ hh]

theorem dget_image_dim_special_step_ne (fg : List (String × FVal))
    (cls k : String) (hw : k ≠ "width") (hh : k ≠ "height") :
    dget (image_dim_special_step fg cls) k = dget fg k := by
  unfold image_dim_special_step
  repeat' split
  all_goals first
    | rfl
    | rw [dget_dset_ne _ _ _ _ hw]
    | rw [dget_dset_ne _ _ _ _ hh]

theorem dget_pid_ne (fw : Option Fw) (tag : String) (classes : List String)
    (fg : List (String × FVal)) (k : String) (hw : k ≠ "width") (hh : k ≠ "height") :
    dget (process_image_dimensions fw tag classes fg) k = dget fg k := by
  unfold process_image_dimensions
  split
  · rw [dget_foldl_preserve _ _ classes
        (fun fg2 b => dget_image_dim_special_step_ne fg2 b k hw hh),
      dget_foldl_preserve _ _ classes
        (fun fg2 b => dget_image_dim_numeric_step_ne fw fg2 b k hw hh)]
  · rfl

theorem dget_dimension_class_step_ne (fg : List (String × FVal)) (cls k : String)
    (hw : k ≠ "width") (hh : k ≠ "height") :
    dget (dimension_class_step fg cls) k = dget fg k := by
  unfold dimension_class_step
  repeat' split
  all_goals first
    | rfl
    | rw [dget_dset_ne _ _ _ _ hw]
    | rw [dget_dset_ne _ _ _ _ hh]

theorem dget_pdc_ne (classes : List String) (fg : List (String × FVal)) (k : String)
    (hw : k ≠ "width") (hh : k ≠ "height") :
    dget (process_dimension_classes classes fg) k = dget fg k :=
  dget_foldl_preserve _ _ classes (fun fg2 b => dget_dimension_class_step_ne fg2 b k hw hh) fg

theorem dget_font_class_step_ne (fs : List (String × FVal)) (cls k : String)
    (h1 : k ≠ "fontWeight") (h2 : k ≠ "fontSize") (h3 : k ≠ "textAlign") :
    dget (font_class_step fs cls) k = dget fs k := by
  unfold font_class_step
  repeat' split
  all_goals simp [dget_dset, h1, h2, h3]

theorem dget_pfc_ne (classes : List String) (fg : List (String × FVal)) (k : String)
    (h1 : k ≠ "fontWeight") (h2 : k ≠ "fontSize") (h3 : k ≠ "textAlign") :
    dget (process_font_classes classes fg) k = dget fg k := by
  unfold process_font_classes
  exact dget_dUpdate_of_none _ _ _
    (dget_foldl_preserve _ _ classes (fun fs2 b => dget_font_class_step_ne fs2 b k h1 h2 h3) [])

theorem dget_apply_font_styles_ne (styles : List (String × String))
    (fg : List (String × FVal)) (k : String)
    (h1 : k ≠ "fontSize") (h2 : k ≠ "fontWeight") (h3 : k ≠ "textAlign")
    (h4 : k ≠ "lineHeight") :
    dget (apply_font_styles styles fg) k = dget fg k := by
  unfold apply_font_styles
  repeat' split
  all_goals simp [dget_dset, h1, h2, h3, h4]

theorem dget_apply_color_styles_ne (styles : List (String × String))
    (fg fg2 : List (String × FVal)) (k : String)
    (h : apply_color_styles styles fg = some fg2)
    (hf : k ≠ "fills") (hb : k ≠ "background") :
    dget fg2 k = dget fg k := by
  unfold apply_color_styles at h
  repeat' split at h
  all_goals cases h
  all_goals simp [dget_appendFill_ne, hf, hb]

theorem dget_inline_step_ne (attrs : List (String × String)) (fg : List (String × FVal))
    (sf : List (String × String) × List (String × FVal)) (k : String)
    (h : inline_step attrs fg = some sf)
    (h1 : k ≠ "fontSize") (h2 : k ≠ "fontWeight") (h3 : k ≠ "textAlign")
    (h4 : k ≠ "lineHeight") (hf : k ≠ "fills") (hb : k ≠ "background") :
    dget sf.2 k = dget fg k := by
  unfold inline_step at h
  split at h
  · simp only [] at h
    split at h
    · rename_i figma2 hcolor
      cases h
      rw [dget_apply_color_styles_ne _ _ _ _ hcolor hf hb,
        dget_apply_font_styles_ne _ _ _ h1 h2 h3 h4]
    · cases h
  · cases h
    rfl

/-! Structural lemmas about _parse_node and the child loop. -/

theorem parse_node_elem (fw : Option Fw) (tag : String) (attrs : List (String × String))
    (classes : List String) (kids : List HNode) (n : HTMLNode)
    (h : parse_node fw (HNode.elem tag attrs classes kids) = some n) :
    ∃ sf r,
      inline_step attrs
          (if tag = "img" then process_image_node attrs classes emptyFigma
           else (attrs, emptyFigma)).2 = some sf
      ∧ parse_kids fw (initial_text (HNode.elem tag attrs classes kids)) kids = some r
      ∧ n = HTMLNode.mk tag classes r.1 r.2
          (if tag = "img" then process_image_node attrs classes emptyFigma
           else (attrs, emptyFigma)).1
          fw sf.1
          (process_dimension_classes classes (process_font_classes classes
            (match fw with
             | some Fw.bootstrap => resolve_bootstrap_styles classes
             | some Fw.tailwind => resolve_tailwind_styles classes
             | none => process_image_dimensions fw tag classes
                 (process_text_color_classes classes sf.2)))) := by
  rw [parse_node] at h
  split at h
  · exact absurd h (by simp)
  · rename_i sf hsf
    split at h
    · split at h
      · exact absurd h (by simp)
      · rename_i r hr
        refine ⟨sf, r, hsf, hr, ?_⟩
        simp only [Option.some.injEq] at h
        exact h.symm
    · split at h
      · exact absurd h (by simp)
      · rename_i r hr
        refine ⟨sf, r, hsf, hr, ?_⟩
        simp only [Option.some.injEq] at h
        exact h.symm
    · split at h
      · exact absurd h (by simp)
      · rename_i r hr
        refine ⟨sf, r, hsf, hr, ?_⟩
        simp only [Option.some.injEq] at h
        exact h.symm

theorem parse_node_framework (fw : Option Fw) (e : HNode) (n : HTMLNode)
    (h : parse_node fw e = some n) : n.framework = fw := by
  cases e with
  | text s => rw [parse_node] at h; cases h
  | elem tag attrs classes kids =>
    obtain ⟨sf, r, _, _, hn⟩ := parse_node_elem fw tag attrs classes kids n h
    rw [hn]
    rfl

theorem lastVal_cons_some (y : String) (t : List String) :
    ∃ z, lastVal (y :: t) = some z := by
  induction t generalizing y with
  | nil => exact ⟨y, rfl⟩
  | cons b t ih => exact ih b

theorem lastVal_cons (x : String) (l : List String) :
    lastVal (x :: l) =
      match lastVal l with
      | none => some x
      | some y => some y := by
  cases l with
  | nil => rfl
  | cons y t =>
    obtain ⟨z, hz⟩ := lastVal_cons_some y t
    show lastVal (y :: t) = _
    rw [hz]

theorem parse_kids_text (fw : Option Fw) (kids : List HNode) :
    ∀ (t : Option String) (r : List HTMLNode × Option String),
      parse_kids fw t kids = some r →
      r.2 = match lastVal (kids.filterMap textVal) with
            | some s => some s
            | none => t := by
  induction kids with
  | nil =>
    intro t r h
    rw [parse_kids] at h
    simp only [Option.some.injEq] at h
    rw [← h]
    rfl
  | cons k kids ih =>
    intro t r h
    cases k with
    | text s =>
      rw [parse_kids] at h
      by_cases hs : pyStrip s ≠ ""
      · rw [if_pos hs] at h
        have h2 := ih _ _ h
        have hf : (HNode.text s :: kids).filterMap textVal =
            pyStrip s :: kids.filterMap textVal := by
          simp [List.filterMap_cons, textVal, hs]
        rw [hf, lastVal_cons]
        cases hl : lastVal (kids.filterMap textVal) with
        | none => rw [h2, hl]
        | some z => rw [h2, hl]
      · rw [if_neg hs] at h
        have h2 := ih _ _ h
        have hf : (HNode.text s :: kids).filterMap textVal =
            kids.filterMap textVal := by
          simp only [ne_eq, not_not] at hs
          simp [List.filterMap_cons, textVal, hs]
        rw [hf, h2]
    | elem tg a c k2 =>
      rw [parse_kids] at h
      split at h
      · exact absurd h (by simp)
      · split at h
        · exact absurd h (by simp)
        · rename_i r2 hr2
          simp only [Option.some.injEq] at h
          have hf : (HNode.elem tg a c k2 :: kids).filterMap textVal =
              kids.filterMap textVal := by
            simp [List.filterMap_cons, textVal]
          rw [hf, ← h]
          exact ih t r2 hr2

theorem dimension_regex_match_axis (cls : String) (ax : Char) (nv : ℕ)
    (h : dimension_regex_match cls = some (ax, nv)) : ax = 'w' ∨ ax = 'h' := by
  unfold dimension_regex_match at h
  split at h
  · split_ifs at h with hcond
    simp only [Option.some.injEq, Prod.mk.injEq] at h
    rw [← h.1]
    exact hcond.1
  · cases h

theorem dget_pdc_last (pre post : List String) (cls : String) (ax : Char) (nv : ℕ)
    (fg : List (String × FVal))
    (hm : dimension_regex_match cls = some (ax, nv))
    (hpost : ∀ c2 ∈ post, ∀ m2, dimension_regex_match c2 = some m2 → m2.1 ≠ ax) :
    dget (process_dimension_classes (pre ++ cls :: post) fg)
        (if ax = 'w' then "width" else "height")
      = some (FVal.num ((nv : ℕ) * 4)) := by
  have hax := dimension_regex_match_axis cls ax nv hm
  unfold process_dimension_classes
  rw [List.foldl_append, List.foldl_cons]
  rw [dget_foldl_preserve_mem dimension_class_step _ post ?hpres]
  · unfold dimension_class_step
    rw [hm, dget_dset, if_pos rfl]
  case hpres =>
    intro c2 hc2 fg2
    unfold dimension_class_step
    split
    · rename_i m2 g2 n2 hm2
      have hax2 := dimension_regex_match_axis c2 g2 n2 hm2
      have hne := hpost c2 hc2 (g2, n2) hm2
      rw [dget_dset_ne]
      rcases hax with rfl | rfl <;> rcases hax2 with rfl | rfl <;> simp_all
    · rfl

/-- C1: for every element parsed under a detected framework of bootstrap
or tailwind, the figma_styles of the resulting node are exactly the table
resolution of its class list with only the font-class and generic
dimension-class passes (step h) merged on top: whatever bag steps (c)-(f)
accumulated (image handling, inline styles, text color classes, image
dimension classes) is replaced by the assignment of step (g). -/
theorem C1_table_resolution_replaces :
    (∀ (tag : String) (attrs : List (String × String)) (classes : List String)
        (kids : List HNode) (n : HTMLNode),
        parse_node (some Fw.bootstrap) (HNode.elem tag attrs classes kids) = some n →
        n.figma_styles = process_dimension_classes classes
          (process_font_classes classes (resolve_bootstrap_styles classes)))
    ∧ (∀ (tag : String) (attrs : List (String × String)) (classes : List String)
        (kids : List HNode) (n : HTMLNode),
        parse_node (some Fw.tailwind) (HNode.elem tag attrs classes kids) = some n →
        n.figma_styles = process_dimension_classes classes
          (process_font_classes classes (resolve_tailwind_styles classes))) := by
  constructor
  · intro tag attrs classes kids n h
    obtain ⟨sf, r, _, _, hn⟩ :=
      parse_node_elem (some Fw.bootstrap) tag attrs classes kids n h
    rw [hn]
    rfl
  · intro tag attrs classes kids n h
    obtain ⟨sf, r, _, _, hn⟩ :=
      parse_node_elem (some Fw.tailwind) tag attrs classes kids n h
    rw [hn]
    rfl

/-- Witness for C1: a concrete bootstrap element with an inline color
style (which step d turns into a fill) and one table class; the final bag
is the table resolution of the class list with the step h passes on top,
the inline fill being discarded. -/
theorem C1_witness :
    (getNode (parse_node (some Fw.bootstrap)
        (HNode.elem "div" [("style", "color: #fff")] ["p-3"] []))).figma_styles
      = process_dimension_classes ["p-3"] (process_font_classes ["p-3"]
          (resolve_bootstrap_styles ["p-3"])) :=
  C1_table_resolution_replaces.1 "div" [("style", "color: #fff")] ["p-3"] []
    (getNode (parse_node (some Fw.bootstrap)
        (HNode.elem "div" [("style", "color: #fff")] ["p-3"] []))) rfl

/-- C2: the generic dimension pass runs last in _parse_node, so for every
element carrying a class matching the w/h dash digits pattern (and no
later class matching the same axis overwriting it), the final
figma_styles carry width (for w) or height (for h) equal to N times 4,
whatever the detected framework; under Tailwind the class w-24 yields
width 96 and under Bootstrap the class w-25 on a non-img element yields
width 100. -/
theorem C2_generic_dimension_pass :
    (∀ (fw : Option Fw) (tag : String) (attrs : List (String × String))
        (pre post : List String) (cls : String) (ax : Char) (nv : ℕ)
        (kids : List HNode) (n : HTMLNode),
        parse_node fw (HNode.elem tag attrs (pre ++ cls :: post) kids) = some n →
        dimension_regex_match cls = some (ax, nv) →
        (∀ c2 ∈ post, ∀ m2, dimension_regex_match c2 = some m2 → m2.1 ≠ ax) →
        dget n.figma_styles (if ax = 'w' then "width" else "height")
          = some (FVal.num ((nv : ℕ) * 4)))
    ∧ dget (getNode (parse_node (some Fw.tailwind)
          (HNode.elem "div" [] ["w-24"] []))).figma_styles "width" = some (FVal.num 96)
    ∧ dget (getNode (parse_node (some Fw.bootstrap)
          (HNode.elem "div" [] ["w-25"] []))).figma_styles "width" = some (FVal.num 100) := by
  refine ⟨?_, rfl, rfl⟩
  intro fw tag attrs pre post cls ax nv kids n h hm hpost
  obtain ⟨sf, r, _, _, hn⟩ := parse_node_elem fw tag attrs (pre ++ cls :: post) kids n h
  rw [hn]
  exact dget_pdc_last pre post cls ax nv _ hm hpost

/-- Witness for C2: the general conjunct applied to a concrete element
with classes x, w-7, h-2 under no framework; the h-2 class matches the
other axis, so width is 7 times 4. -/
theorem C2_witness :
    dget (getNode (parse_node none
        (HNode.elem "div" [] ["x", "w-7", "h-2"] []))).figma_styles "width"
      = some (FVal.num 28) := by
  refine C2_generic_dimension_pass.1 none "div" [] ["x"] ["h-2"] "w-7" 'w' 7 []
    (getNode (parse_node none (HNode.elem "div" [] ["x", "w-7", "h-2"] []))) rfl rfl ?_
  intro c2 hc2 m2 hm2
  simp only [List.mem_singleton] at hc2
  subst hc2
  rw [show dimension_regex_match "h-2" = some ('h', 2) from rfl] at hm2
  cases hm2
  decide

/-- C6: for every document without a body element, parse returns (besides
the updated framework state) a root node with tag body, no children, no
text and empty classes, attributes, styles and figma styles; the
transformer never rejects such a document. Tokenization of the raw HTML
string is the BeautifulSoup boundary, modelled by the HNode forest. -/
theorem C6_no_body_default_root (st : Option Fw) (doc : List HNode)
    (h : findBody doc = none) :
    parse st doc = (detect_framework st doc,
      some (HTMLNode.mk "body" [] [] none [] none [] [])) := by
  unfold parse
  rw [h]

/-- Witness for C6 at a concrete body-less document. -/
theorem C6_witness :
    parse none [HNode.elem "div" [] [] []] = (detect_framework none [HNode.elem "div" [] [] []],
      some (HTMLNode.mk "body" [] [] none [] none [] [])) :=
  C6_no_body_default_root none [HNode.elem "div" [] [] []] rfl

/-- C7: in every parsed element the text field is governed by the
non-blank direct string children: when the element has more than one
non-blank string child, the text is the stripped value of the last one in
document order (every earlier value is overwritten), and when every
string child is blank the text is exactly the value captured by step (b)
from node.string, so blank string children never set the text. -/
theorem C7_last_text_child_wins (fw : Option Fw) (tag : String)
    (attrs : List (String × String)) (classes : List String) (kids : List HNode)
    (n : HTMLNode)
    (h : parse_node fw (HNode.elem tag attrs classes kids) = some n) :
    (1 < (kids.filterMap textVal).length →
        n.text = lastVal (kids.filterMap textVal))
    ∧ (kids.filterMap textVal = [] →
        n.text = initial_text (HNode.elem tag attrs classes kids)) := by
  obtain ⟨sf, r, _, hr, hn⟩ := parse_node_elem fw tag attrs classes kids n h
  have htext := parse_kids_text fw kids _ r hr
  constructor
  · intro hlen
    have hne : kids.filterMap textVal ≠ [] := by
      intro hnil
      rw [hnil] at hlen
      simp at hlen
    rw [hn]
    show r.2 = _
    rw [htext]
    obtain ⟨x, t2, hx⟩ := List.exists_cons_of_ne_nil hne
    rw [hx]
    obtain ⟨z, hz⟩ := lastVal_cons_some x t2
    rw [hz]
  · intro hnil
    rw [hn]
    show r.2 = _
    rw [htext, hnil]
    rfl

/-- Witness for C7: a concrete element with two non-blank string children
around an element child (the text is the stripped last one), and a
concrete element with a single blank string child (the text stays the
step b value, here none). -/
theorem C7_witness :
    (getNode (parse_node none (HNode.elem "div" [] []
        [HNode.text "first", HNode.elem "span" [] [] [], HNode.text " second "]))).text
      = lastVal ([HNode.text "first", HNode.elem "span" [] [] [],
          HNode.text " second "].filterMap textVal)
    ∧ (getNode (parse_node none (HNode.elem "p" [] [] [HNode.text "   "]))).text
      = initial_text (HNode.elem "p" [] [] [HNode.text "   "]) :=
  ⟨(C7_last_text_child_wins none "div" [] []
      [HNode.text "first", HNode.elem "span" [] [] [], HNode.text " second "]
      (getNode (parse_node none (HNode.elem "div" [] []
        [HNode.text "first", HNode.elem "span" [] [] [], HNode.text " second "])))
      rfl).1 (by decide),
   (C7_last_text_child_wins none "p" [] [] [HNode.text "   "]
      (getNode (parse_node none (HNode.elem "p" [] [] [HNode.text "   "])))
      rfl).2 (by decide)⟩

/-! Lemmas about _process_image_node and the image keys. -/

theorem dget_image_node_dim_step_ne (fg : List (String × FVal)) (cls k : String)
    (hw : k ≠ "width") (hh : k ≠ "height") :
    dget (image_node_dim_step fg cls) k = dget fg k := by
  unfold image_node_dim_step
  repeat' split
  all_goals first
    | rfl
    | rw [dget_dset_ne _ _ _ _ hw]
    | rw [dget_dset_ne _ _ _ _ hh]

theorem pin_constraints (attrs : List (String × String)) (classes : List String)
    (figma : List (String × FVal)) :
    dget (process_image_node attrs classes figma).2 "constraints"
      = some (FVal.obj [("horizontal", FVal.str "SCALE"), ("vertical", FVal.str "SCALE")]) := by
  unfold process_image_node
  exact dget_dUpdate_of_some _ _ _ _ (by decide) rfl

theorem pin_layoutMode (attrs : List (String × String)) (classes : List String)
    (figma : List (String × FVal)) :
    dget (process_image_node attrs classes figma).2 "layoutMode"
      = some (FVal.str "NONE") := by
  unfold process_image_node
  exact dget_dUpdate_of_some _ _ _ _ (by decide) rfl

theorem pin_imageHash (attrs : List (String × String)) (classes : List String)
    (figma : List (String × FVal)) (v : String) (hv : dget attrs "src" = some v) :
    dget (process_image_node attrs classes figma).2 "imageHash"
      = some (FVal.str (get_image_hash v)) := by
  unfold process_image_node
  simp only []
  rw [dget_dUpdate_of_none _ _ _ (by rfl),
    dget_foldl_preserve image_node_dim_step _ classes
      (fun fg2 b => dget_image_node_dim_step_ne fg2 b _ (by decide) (by decide)),
    hv]
  rw [dget_dset, if_pos rfl]

theorem dget_parse_node_img_key (attrs : List (String × String)) (classes : List String)
    (kids : List HNode) (n : HTMLNode) (k : String)
    (h : parse_node none (HNode.elem "img" attrs classes kids) = some n)
    (hk : k = "constraints" ∨ k = "layoutMode" ∨ k = "imageHash") :
    dget n.figma_styles k = dget (process_image_node attrs classes emptyFigma).2 k := by
  obtain ⟨sf, r, hsf, _, hn⟩ := parse_node_elem none "img" attrs classes kids n h
  have hks : k ≠ "width" ∧ k ≠ "height" ∧ k ≠ "fills" ∧ k ≠ "background"
      ∧ k ≠ "fontWeight" ∧ k ≠ "fontSize" ∧ k ≠ "textAlign" ∧ k ≠ "lineHeight" := by
    rcases hk with rfl | rfl | rfl <;> exact
      ⟨by decide, by decide, by decide, by decide, by decide, by decide, by decide, by decide⟩
  obtain ⟨h1, h2, h3, h4, h5, h6, h7, h8⟩ := hks
  rw [hn]
  show dget (process_dimension_classes classes (process_font_classes classes
    (process_image_dimensions none "img" classes
      (process_text_color_classes classes sf.2)))) k = _
  rw [dget_pdc_ne _ _ _ h1 h2, dget_pfc_ne _ _ _ h5 h6 h7,
    dget_pid_ne _ _ _ _ _ h1 h2, dget_ptcc_ne _ _ _ h3,
    dget_inline_step_ne attrs _ sf k hsf h6 h5 h7 h8 h3 h4]
  rfl

/-- C3 counterexample: in a document whose detected framework is
bootstrap, the body contains one img element with a src attribute, and
the resulting img node has an EMPTY figma_styles bag (the framework
table assignment of step g discarded the image hints), so it contains
neither the constraints record nor layoutMode nor any image reference
identifier, contradicting the claim as stated for every img element. -/
theorem C3_counterexample :
    (parse none bootstrapImgDoc).2.map (fun nd => nd.children.map HTMLNode.figma_styles)
      = some [[]]
    ∧ dget ([] : List (String × FVal)) "constraints" = none
    ∧ dget ([] : List (String × FVal)) "layoutMode" = none
    ∧ dget ([] : List (String × FVal)) "imageHash" = none :=
  ⟨rfl, rfl, rfl, rfl⟩

/-- C3 amended: for every element with tag img parsed in a document whose
detected framework is none (so that step g performs no replacing
assignment), the resulting figma_styles contain the fixed constraints
record and layoutMode NONE, and, when a src attribute is present, the
image reference identifier computed by the fixed hash function of the
src value; the identifier depends on nothing but the src string, so any
two img nodes with the same src (in any documents parsed by this
process) receive the same identifier. -/
theorem C3_amended_image_hints (attrs : List (String × String)) (classes : List String)
    (kids : List HNode) (n : HTMLNode)
    (h : parse_node none (HNode.elem "img" attrs classes kids) = some n) :
    dget n.figma_styles "constraints"
        = some (FVal.obj [("horizontal", FVal.str "SCALE"), ("vertical", FVal.str "SCALE")])
    ∧ dget n.figma_styles "layoutMode" = some (FVal.str "NONE")
    ∧ (∀ v, dget attrs "src" = some v →
        dget n.figma_styles "imageHash" = some (FVal.str (get_image_hash v)))
    ∧ (∀ (attrs2 : List (String × String)) (classes2 : List String)
          (kids2 : List HNode) (n2 : HTMLNode) (v : String),
        parse_node none (HNode.elem "img" attrs2 classes2 kids2) = some n2 →
        dget attrs "src" = some v → dget attrs2 "src" = some v →
        dget n.figma_styles "imageHash" = dget n2.figma_styles "imageHash") := by
  have key : ∀ (a2 : List (String × String)) (c2 : List String) (k2 : List HNode)
      (nn : HTMLNode), parse_node none (HNode.elem "img" a2 c2 k2) = some nn →
      ∀ v, dget a2 "src" = some v →
      dget nn.figma_styles "imageHash" = some (FVal.str (get_image_hash v)) := by
    intro a2 c2 k2 nn hnn v hv
    rw [dget_parse_node_img_key a2 c2 k2 nn _ hnn (Or.inr (Or.inr rfl))]
    exact pin_imageHash a2 c2 emptyFigma v hv
  refine ⟨?_, ?_, key attrs classes kids n h, ?_⟩
  · rw [dget_parse_node_img_key attrs classes kids n _ h (Or.inl rfl)]
    exact pin_constraints attrs classes emptyFigma
  · rw [dget_parse_node_img_key attrs classes kids n _ h (Or.inr (Or.inl rfl))]
    exact pin_layoutMode attrs classes emptyFigma
  · intro attrs2 classes2 kids2 n2 v h2 hv hv2
    rw [key attrs classes kids n h v hv, key attrs2 classes2 kids2 n2 h2 v hv2]

/-- Witness for C3 (amended): a concrete img element with a src attribute
parsed with no detected framework. -/
theorem C3_witness :
    dget (getNode (parse_node none
        (HNode.elem "img" [("src", "pic.png")] [] []))).figma_styles "constraints"
      = some (FVal.obj [("horizontal", FVal.str "SCALE"), ("vertical", FVal.str "SCALE")])
    ∧ dget (getNode (parse_node none
        (HNode.elem "img" [("src", "pic.png")] [] []))).figma_styles "imageHash"
      = some (FVal.str (get_image_hash "pic.png")) :=
  ⟨(C3_amended_image_hints [("src", "pic.png")] [] []
      (getNode (parse_node none (HNode.elem "img" [("src", "pic.png")] [] []))) rfl).1,
   (C3_amended_image_hints [("src", "pic.png")] [] []
      (getNode (parse_node none (HNode.elem "img" [("src", "pic.png")] [] []))) rfl).2.2.1
      "pic.png" rfl⟩

/-- C4 counterexample: parsing a document with a Bootstrap link leaves
the stored framework set to bootstrap; parsing a document with no
framework signal afterwards on the same instance returns a different
tree (its root carries framework bootstrap) than parsing the same
document on a fresh instance (root framework none), contradicting the
claimed history independence. -/
theorem C4_counterexample :
    (parse (parse none bootstrapImgDoc).1 plainBodyDoc).2 ≠ (parse none plainBodyDoc).2 := by
  intro hcontra
  have h2 := congrArg (Option.map HTMLNode.framework) hcontra
  have e1 : Option.map HTMLNode.framework
      (parse (parse none bootstrapImgDoc).1 plainBodyDoc).2 = some (some Fw.bootstrap) := rfl
  have e2 : Option.map HTMLNode.framework (parse none plainBodyDoc).2 = some none := rfl
  rw [e1, e2] at h2
  simp at h2

/-- C4 amended: the framework classification is recomputed at every parse
but stored on the instance and never reset: documents carrying a
framework signal parse history-independently (first conjunct), while a
document with no signal leaves the stored framework unchanged and is
transformed with whatever framework an earlier parse left behind (second
conjunct); on a fresh instance a document with no framework signals still
yields a root with framework none (third conjunct). -/
theorem C4_amended_stale_framework_state :
    (∀ (st : Option Fw) (doc : List HNode),
        (hasBootstrapSignal doc = true ∨ hasTailwindSignal doc = true) →
        parse st doc = parse none doc)
    ∧ (∀ (st : Option Fw) (doc : List HNode),
        hasBootstrapSignal doc = false → hasTailwindSignal doc = false →
        (parse st doc).1 = st
        ∧ (findBody doc = none →
            (parse st doc).2 = some (HTMLNode.mk "body" [] [] none [] none [] []))
        ∧ (∀ b, findBody doc = some b → (parse st doc).2 = parse_node st b))
    ∧ (∀ (doc : List HNode) (n : HTMLNode),
        hasBootstrapSignal doc = false → hasTailwindSignal doc = false →
        (parse none doc).2 = some n → n.framework = none) := by
  have hdet : ∀ (st : Option Fw) (doc : List HNode),
      hasBootstrapSignal doc = false → hasTailwindSignal doc = false →
      detect_framework st doc = st := by
    intro st doc hb ht
    unfold detect_framework
    rw [hb, ht]
    simp
  refine ⟨?_, ?_, ?_⟩
  · intro st doc hsig
    have hd : detect_framework st doc = detect_framework none doc := by
      unfold detect_framework
      rcases hsig with hb | ht
      · simp [hb]
      · cases hbc : hasBootstrapSignal doc
        · simp [hbc, ht]
        · simp [hbc]
    unfold parse
    rw [hd]
  · intro st doc hb ht
    have h1 : parse st doc = (st, (parse st doc).2) := by
      unfold parse
      rw [hdet st doc hb ht]
      cases findBody doc <;> rfl
    refine ⟨by rw [h1], ?_, ?_⟩
    · intro hnone
      unfold parse
      rw [hnone]
    · intro b hbody
      unfold parse
      rw [hbody, hdet st doc hb ht]
  · intro doc n hb ht hp
    cases hbody : findBody doc with
    | none =>
      unfold parse at hp
      rw [hbody] at hp
      simp only [Option.some.injEq] at hp
      rw [← hp]
      rfl
    | some b =>
      unfold parse at hp
      rw [hbody, hdet none doc hb ht] at hp
      exact parse_node_framework none b n hp

/-- Witness for C4 (amended): the first conjunct applied to the concrete
bootstrap document, and the second conjunct applied to the concrete
signal-free document with a stale bootstrap state. -/
theorem C4_witness :
    parse (some Fw.tailwind) bootstrapImgDoc = parse none bootstrapImgDoc
    ∧ (parse (some Fw.bootstrap) plainBodyDoc).1 = some Fw.bootstrap :=
  ⟨C4_amended_stale_framework_state.1 (some Fw.tailwind) bootstrapImgDoc (Or.inl rfl),
   (C4_amended_stale_framework_state.2.1 (some Fw.bootstrap) plainBodyDoc rfl rfl).1⟩

end HtmlToFigma
